import Mathlib

/-!
Shallow embedding of the ascii4 frame sampler / store writer (`src/convert.rs`,
with the standalone historical variant in `src/main.rs` where noted), the
frame-store discoverer and playback scheduler (`src/play.rs`).

Machine integers are modelled as `Nat`/`Int`; the Rust `f64` arithmetic used
for the sampling threshold, the bucket computation and the frame clock is
modelled over `ℚ` (exact where the corresponding `f64` computation is exact;
every concrete input below stays in the exactly-representable range).
Rust saturating float-to-integer casts (`as u64`, `as i64`) are modelled
explicitly where they can fire.
-/

namespace Ascii4

/-! ## File-name parsing (Rust `Path::file_stem` / `Path::extension` / `str::parse::<u64>`) -/

/-- Split a list of characters at its last dot: returns the part before and
after the last `'.'`, or `none` when there is no dot.  Helper for the Rust
`Path::file_stem`/`Path::extension` semantics. -/
def lastDotSplit : List Char → Option (List Char × List Char)
  | [] => none
  | c :: rest =>
    match lastDotSplit rest with
    | some (b, a) => some (c :: b, a)
    | none => if c = '.' then some ([], rest) else none

/-- Rust `Path::file_stem` on a plain file name: the portion before the last
dot; the whole name when there is no dot, or when the name begins with a dot
and has no other dot. -/
def fileStem (name : String) : String :=
  match lastDotSplit name.toList with
  | none => name
  | some (b, _) => if b = [] then name else ⟨b⟩

/-- Rust `Path::extension` on a plain file name: the portion after the last
dot; `none` when there is no dot, or when the name begins with a dot and has
no other dot. -/
def fileExtension (name : String) : Option String :=
  match lastDotSplit name.toList with
  | none => none
  | some (b, a) => if b = [] then none else some ⟨a⟩

/-- Rust `str::parse::<u64>`: an optional leading `'+'`, then one or more
ASCII digits, value below `2^64` (overflow is a parse error). -/
def parseU64 (s : String) : Option Nat :=
  let cs := s.toList
  let ds := if cs.head? = some '+' then cs.tail else cs
  if ds ≠ [] ∧ ds.all Char.isDigit then
    let v := ds.foldl (fun a c => a * 10 + (c.toNat - 48)) 0
    if v < 2 ^ 64 then some v else none
  else none

/-! ## Frame-store discovery data model (`src/play.rs`) -/

/-- Identity of a discovered frame file: either a loose file at the store
root, or a file inside a bucket ("second") directory. -/
inductive FramePath where
  | root (name : String)
  | sub (dir : String) (name : String)
deriving DecidableEq, Repr

/-- `FrameInfo` from `src/types/info.rs`. -/
structure FrameInfo where
  path : FramePath
  number : Nat
deriving DecidableEq, Repr

/-- `SecondInfo` from `src/types/info.rs`. -/
structure SecondInfo where
  number : Nat
  frames : List FrameInfo
deriving DecidableEq, Repr

/-- A direct child of the store root as seen by `discover_and_sort_frames`:
a sub-directory with its (regular-)file children, or a regular file. -/
inductive FsEntry where
  | dir (name : String) (files : List String)
  | file (name : String)
deriving DecidableEq, Repr

/-- The `eprintln!` warnings of `discover_and_sort_frames`: a frame file whose
stem did not parse, or a directory whose name did not parse. -/
inductive Warning where
  | badFrameFile (p : FramePath)
  | badDirName (name : String)
deriving DecidableEq, Repr

/-- Stable insertion of `a` after every element whose key is `≤ key a`;
building block of the stable `sort_by_key`. -/
def insertByKey (key : α → Nat) (a : α) : List α → List α
  | [] => [a]
  | b :: bs => if key b ≤ key a then b :: insertByKey key a bs else a :: b :: bs

/-- Stable sort by a `Nat` key, modelling Rust's stable `sort_by_key`. -/
def sortByKey (key : α → Nat) (l : List α) : List α :=
  l.foldl (fun acc a => insertByKey key a acc) []

/-- Scan the file children of a bucket directory (`src/play.rs:135-159`):
keep `.txt` files whose stem parses as `u64`, warn on `.txt` files whose stem
does not parse, skip everything else silently. -/
def scanDirFiles (dname : String) : List String → List FrameInfo × List Warning
  | [] => ([], [])
  | f :: rest =>
    let acc := scanDirFiles dname rest
    if fileExtension f = some "txt" then
      match parseU64 (fileStem f) with
      | some n => (⟨.sub dname f, n⟩ :: acc.1, acc.2)
      | none => (acc.1, .badFrameFile (.sub dname f) :: acc.2)
    else acc

/-- Insert a loose root frame into the first `SecondInfo` with number 0
(`seconds.iter_mut().find(|s| s.number == 0)`), appending a fresh bucket-0
entry at the end when none exists (`src/play.rs:174-188`). -/
def pushRootFrame (fi : FrameInfo) : List SecondInfo → List SecondInfo
  | [] => [⟨0, [fi]⟩]
  | s :: rest =>
    if s.number = 0 then { s with frames := s.frames ++ [fi] } :: rest
    else s :: pushRootFrame fi rest

/-- One iteration of the root scan loop of `discover_and_sort_frames`
(`src/play.rs:123-196`), processing a single directory entry. -/
def discoverStep (acc : List SecondInfo × List Warning) (e : FsEntry) :
    List SecondInfo × List Warning :=
  match e with
  | .dir name files =>
    match parseU64 name with
    | some n =>
      let scanned := scanDirFiles name files
      let sorted := sortByKey (fun fi => fi.number) scanned.1
      (if sorted.isEmpty then acc.1 else acc.1 ++ [⟨n, sorted⟩], acc.2 ++ scanned.2)
    | none => (acc.1, acc.2 ++ [.badDirName name])
  | .file name =>
    if fileExtension name = some "txt" then
      match parseU64 (fileStem name) with
      | some n => (pushRootFrame ⟨.root name, n⟩ acc.1, acc.2)
      | none => (acc.1, acc.2 ++ [.badFrameFile (.root name)])
    else acc

/-- The root scan loop, threading the accumulated buckets and warnings
through the entries in filesystem iteration order. -/
def processEntries (acc : List SecondInfo × List Warning) :
    List FsEntry → List SecondInfo × List Warning
  | [] => acc
  | e :: rest => processEntries (discoverStep acc e) rest

/-- Post-loop fixup of `src/play.rs:199-201`: sort the frames of the *first*
bucket-0 entry (`iter_mut().find`), leaving any later bucket-0 entry alone. -/
def sortSecondZero : List SecondInfo → List SecondInfo
  | [] => []
  | s :: rest =>
    if s.number = 0 then
      { s with frames := sortByKey (fun fi => fi.number) s.frames } :: rest
    else s :: sortSecondZero rest

/-- `discover_and_sort_frames` (`src/play.rs:117-211`) on a readable root:
returns the flattened ordered frame paths together with the warnings emitted
during the scan. -/
def discover (entries : List FsEntry) : List FramePath × List Warning :=
  let scanned := processEntries ([], []) entries
  let seconds := sortByKey (fun s => s.number) (sortSecondZero scanned.1)
  (seconds.flatMap fun s => s.frames.map (fun fi => fi.path), scanned.2)

/-! ## Conversion: threshold, keep decision, bucketing, store writer
(`src/convert.rs`, historical variant `src/main.rs`) -/

/-- Rust `f64::round`: round half away from zero, here on an exact rational. -/
def roundHalfAwayFromZero (q : ℚ) : ℤ :=
  if 0 ≤ q then ⌊q + 1 / 2⌋ else ⌈q - 1 / 2⌉

/-- `src/convert.rs:49`: `let min_pts_difference = (video_fps / target_fps).round() as i64;`
No lower clamp is applied. -/
def minPtsDifference (videoFps targetFps : ℚ) : ℤ :=
  roundHalfAwayFromZero (videoFps / targetFps)

/-- The canonical threshold rule stated by the specification:
`max(1, round(source_frame_rate / target_frame_rate))`. -/
def specThreshold (videoFps targetFps : ℚ) : ℤ :=
  max 1 (roundHalfAwayFromZero (videoFps / targetFps))

/-- `src/main.rs:124-128` (standalone historical variant): a time-base-tick
threshold `round(tb_den / (fps * tb_num))` when `0 < fps < original_fps`,
otherwise `1`, the whole expression clamped by `.max(1)`. -/
def mainMinPtsDifference (tbNum tbDen : ℤ) (fps originalFps : ℚ) : ℤ :=
  max (if 0 < fps ∧ fps < originalFps ∧ fps ≠ 0 then
        roundHalfAwayFromZero ((tbDen : ℚ) / (fps * (tbNum : ℚ)))
      else 1) 1

/-- `src/main.rs:70-72` (standalone historical variant): reject a time base
whose denominator is zero before any decoding. -/
def mainTimeBaseCheck (tbDen : ℤ) : Except String Unit :=
  if tbDen = 0 then .error "Invalid video time base (denominator is zero)" else .ok ()

/-- The keep decision of `src/convert.rs:113-116` on the effective timestamp
`cur` (the decoded pts with `unwrap_or(0)` already applied):
`cur >= 0 && (last == -1 || cur - last >= threshold)`. -/
def keepFrame (lastPts thr cur : ℤ) : Bool :=
  decide (0 ≤ cur) && (decide (lastPts = -1) || decide (thr ≤ cur - lastPts))

/-- `src/convert.rs:119-122`:
`(current_pts as f64 * num as f64 / den as f64).floor() as u64`.
For a nonzero denominator this is the floor of the exact quotient, with the
Rust `as u64` saturating cast (negative → 0, above `2^64-1` → `2^64-1`).
For a zero denominator the `f64` division yields `+inf` (positive numerator),
`NaN` (zero numerator) or `-inf` (negative numerator), which `as u64`
saturates to `2^64-1`, `0` and `0` respectively — there is no error path. -/
def bucketOfPts (pts tbNum tbDen : ℤ) : ℕ :=
  if tbDen = 0 then (if 0 < pts * tbNum then 2 ^ 64 - 1 else 0)
  else (min (max 0 ((pts * tbNum).fdiv tbDen)) (2 ^ 64 - 1)).toNat

/-- `fs::create_dir_all` on a bucket directory, modelled on the set of
existing bucket directories: create-if-absent, never an error. -/
def createDirAll (n : ℕ) (dirs : List ℕ) : List ℕ :=
  if n ∈ dirs then dirs else dirs ++ [n]

/-- The mutable conversion state of `run_conversion` (`src/convert.rs:60-65`)
together with the filesystem effects (created bucket directories, written
frame files as (bucket, frame-number) pairs). -/
structure ConvState where
  videoFrameCount : ℕ
  lastPts : ℤ
  lastSecond : Option ℕ
  frameCountInSecond : ℕ
  dirs : List ℕ
  files : List (ℕ × ℕ)
deriving DecidableEq, Repr

/-- Initial conversion state (`src/convert.rs:60-65`): zero frames scanned,
`last_processed_time_pts = -1`, no bucket entered, empty output tree. -/
def convInit : ConvState :=
  { videoFrameCount := 0, lastPts := -1, lastSecond := none
    frameCountInSecond := 0, dirs := [], files := [] }

/-- One decoded frame through the receive loop body of `run_conversion`
(`src/convert.rs:110-206`).  The event carries the decoded pts (`none` for an
unknown timestamp, to which the code applies `unwrap_or(0)`) and a flag
telling whether the scale/convert/write pipeline for this frame succeeds
(any failure there is logged and the frame skipped, `continue`). -/
def convStep (thr tbNum tbDen : ℤ) (s : ConvState) (ev : Option ℤ × Bool) : ConvState :=
  let s := { s with videoFrameCount := s.videoFrameCount + 1 }
  let cur := ev.1.getD 0
  if keepFrame s.lastPts thr cur then
    let sec := bucketOfPts cur tbNum tbDen
    let cnt := if s.lastSecond = some sec then s.frameCountInSecond + 1 else 1
    let dirs := if s.lastSecond = some sec then s.dirs else createDirAll sec s.dirs
    { s with
      lastPts := cur
      lastSecond := some sec
      frameCountInSecond := cnt
      dirs := dirs
      files := if ev.2 then s.files ++ [(sec, cnt)] else s.files }
  else s

/-- A whole decoded-frame sequence through the conversion loop. -/
def convRun (thr tbNum tbDen : ℤ) (evs : List (Option ℤ × Bool)) : ConvState :=
  evs.foldl (convStep thr tbNum tbDen) convInit

/-! ## Playback (`src/play.rs:46-114`) -/

/-- Errors surfaced by `play_animation`, by class. -/
inductive PlayError where
  | invalidFps
  | ioError
  | nothingToPlay
deriving DecidableEq, Repr

/-- The store root as the playback phase finds it: unreadable, or readable
with its direct children. -/
inductive RootListing where
  | unreadable
  | readable (entries : List FsEntry)

/-- `discover_and_sort_frames` including its fallible `fs::read_dir` on the
root (`src/play.rs:120-121`): an unreadable root is an I/O-class error; a
readable root always yields `Ok` with the (possibly empty) ordered list. -/
def discoverAndSortFrames : RootListing → Except PlayError (List FramePath)
  | .unreadable => .error .ioError
  | .readable entries => .ok (discover entries).1

/-- The front part of `play_animation` (`src/play.rs:46-63`): reject a
non-positive fps, run discovery, and fail with the distinct
"No valid frame files found" error when the discovered sequence is empty. -/
def playAnimationFrames (fps : ℚ) (root : RootListing) : Except PlayError (List FramePath) :=
  if fps ≤ 0 then .error .invalidFps
  else
    match discoverAndSortFrames root with
    | .error e => .error e
    | .ok frames => if frames.isEmpty then .error .nothingToPlay else .ok frames

/-- The timed playback loop of `src/play.rs:86-97`, on an exact-rational wall
clock.  `now` is the current instant, `lastFrameTime` the stored
`Instant`; each frame advances the clock by its render time, sleeps for
`frame_duration.saturating_sub(elapsed)` and then resets `last_frame_time`.
Returns the list of per-frame sleep durations. -/
def playSleeps (fps : ℚ) (now lastFrameTime : ℚ) : List ℚ → List ℚ
  | [] => []
  | r :: rest =>
    let afterRender := now + r
    let elapsed := afterRender - lastFrameTime
    let sleep := max 0 (1 / fps - elapsed)
    sleep :: playSleeps fps (afterRender + sleep) (afterRender + sleep) rest

/-! ## Characterization targets used in the theorems below -/

/-- The frame entries a single root child contributes according to the
filtering rules: `.txt` files with parseable stems only. -/
def conformingFrames : FsEntry → List FrameInfo
  | .file name =>
    if fileExtension name = some "txt" then
      match parseU64 (fileStem name) with
      | some n => [⟨.root name, n⟩]
      | none => []
    else []
  | .dir name files =>
    match parseU64 name with
    | some _ =>
      files.filterMap fun f =>
        if fileExtension f = some "txt" then
          (parseU64 (fileStem f)).map fun n => (⟨.sub name f, n⟩ : FrameInfo)
        else none
    | none => []

/-- The warnings a single root child triggers: a `.txt` file whose stem does
not parse (at the root, or inside a parseably named directory), or a
directory whose name does not parse. -/
def warnOf : FsEntry → List Warning
  | .file name =>
    if fileExtension name = some "txt" ∧ parseU64 (fileStem name) = none then
      [.badFrameFile (.root name)]
    else []
  | .dir name files =>
    match parseU64 name with
    | some _ =>
      files.filterMap fun f =>
        if fileExtension f = some "txt" ∧ parseU64 (fileStem f) = none then
          some (.badFrameFile (.sub name f))
        else none
    | none => [.badDirName name]

/-- All frame entries held by a list of buckets, bucket order. -/
def framesOfSeconds (ss : List SecondInfo) : List FrameInfo :=
  ss.flatMap fun s => s.frames

/-- Decimal digits of `n`, most significant first, with explicit fuel so the
kernel can evaluate it. -/
def natDigitsAux : ℕ → ℕ → List Char
  | 0, _ => []
  | fuel + 1, n =>
    if n = 0 then [] else natDigitsAux fuel (n / 10) ++ [Char.ofNat (48 + n % 10)]

/-- The decimal numeral of `n`, as produced by Rust `u64::to_string` /
`format!`. -/
def natToString (n : ℕ) : String :=
  if n = 0 then "0" else ⟨natDigitsAux n n⟩

/-- The on-disk layout left behind by a conversion run: one directory per
created bucket, holding the `<frame_number>.txt` files written into it. -/
def storeEntries (s : ConvState) : List FsEntry :=
  s.dirs.map fun d =>
    .dir (natToString d) (((s.files.filter fun f => f.1 = d).map fun f => natToString f.2 ++ ".txt"))

/-! ## General lemmas -/

theorem playSleeps_eq_map (fps : ℚ) (renders : List ℚ) :
    ∀ t0 : ℚ, playSleeps fps t0 t0 renders = renders.map fun r => max 0 (1 / fps - r) := by
  induction renders with
  | nil => intro t0; rfl
  | cons r rest ih =>
    intro t0
    simp only [playSleeps, List.map_cons]
    have h1 : t0 + r - t0 = r := by ring
    rw [h1, ih]

theorem perm_pair_cases {α : Type _} {l : List α} {a b : α} (h : l.Perm [a, b]) :
    l = [a, b] ∨ l = [b, a] := by
  obtain ⟨x, y, rfl⟩ := List.length_eq_two.mp h.length_eq
  have hx : x ∈ [a, b] := h.subset (List.mem_cons_self x [y])
  rcases List.mem_cons.mp hx with rfl | hx2
  · have hy : [y].Perm [b] := (List.perm_cons x).mp h
    left
    rw [List.perm_singleton.mp hy]
  · have hx3 : x = b := by simpa using hx2
    subst hx3
    have ha : a ∈ [x, y] := h.symm.subset (List.mem_cons_self a [x])
    rcases List.mem_cons.mp ha with rfl | ha2
    · have hy : [y].Perm [a] := (List.perm_cons a).mp h
      left
      rw [List.perm_singleton.mp hy]
    · have ha3 : a = y := by simpa using ha2
      subst ha3
      right
      rfl

theorem perm_triple_cases {α : Type _} {l : List α} {a b c : α} (h : l.Perm [a, b, c]) :
    l = [a, b, c] ∨ l = [a, c, b] ∨ l = [b, a, c] ∨ l = [b, c, a]
      ∨ l = [c, a, b] ∨ l = [c, b, a] := by
  classical
  obtain ⟨x, y, z, rfl⟩ := List.length_eq_three.mp h.length_eq
  have hx : x ∈ [a, b, c] := h.subset (List.mem_cons_self x [y, z])
  have hxe : x = a ∨ x = b ∨ x = c := by simpa using hx
  have ht : [y, z].Perm (([a, b, c]).erase x) :=
    (List.perm_cons x).mp (h.trans (List.perm_cons_erase hx))
  rcases hxe with rfl | rfl | rfl
  · rw [List.erase_cons_head] at ht
    rcases perm_pair_cases ht with h2 | h2 <;> rw [h2] <;> tauto
  · by_cases hab : a = x
    · subst hab
      rw [List.erase_cons_head] at ht
      rcases perm_pair_cases ht with h2 | h2 <;> rw [h2] <;> tauto
    · rw [List.erase_cons_tail (by simpa using hab), List.erase_cons_head] at ht
      rcases perm_pair_cases ht with h2 | h2 <;> rw [h2] <;> tauto
  · by_cases hac : a = x
    · subst hac
      rw [List.erase_cons_head] at ht
      rcases perm_pair_cases ht with h2 | h2 <;> rw [h2] <;> tauto
    · by_cases hbc : b = x
      · subst hbc
        rw [List.erase_cons_tail (by simpa using hac), List.erase_cons_head] at ht
        rcases perm_pair_cases ht with h2 | h2 <;> rw [h2] <;> tauto
      · rw [List.erase_cons_tail (by simpa using hac),
          List.erase_cons_tail (by simpa using hbc), List.erase_cons_head] at ht
        rcases perm_pair_cases ht with h2 | h2 <;> rw [h2] <;> tauto

/-! ## C9: playback scheduler timing -/

/-- C9: during playback each frame is rendered and then the loop sleeps for
exactly `max(0, 1/fps − elapsed)` where `elapsed` is the wall-clock time
since that frame's own start; the sleep is never negative, and the sleep of
frame `i` depends only on frame `i`'s own render time (per-frame deadline,
not an absolute playback-start deadline). -/
theorem playback_sleep_per_frame (fps t0 : ℚ) (renders : List ℚ) :
    playSleeps fps t0 t0 renders = (renders.map fun r => max 0 (1 / fps - r))
    ∧ ∀ s ∈ playSleeps fps t0 t0 renders, 0 ≤ s := by
  refine ⟨playSleeps_eq_map fps renders t0, ?_⟩
  intro s hs
  rw [playSleeps_eq_map fps renders t0] at hs
  obtain ⟨r, _, rfl⟩ := List.mem_map.1 hs
  exact le_max_left 0 _

/-- C9 witness: three pre-loaded frames at fps = 10 sleep for
`max(0, 100ms − render_time)` each. -/
theorem playback_sleep_per_frame_witness :
    playSleeps 10 0 0 [1/100, 2/100, 15/100] =
      [max 0 (1/10 - 1/100), max 0 (1/10 - 2/100), max 0 (1/10 - 15/100)] :=
  (playback_sleep_per_frame 10 0 [1/100, 2/100, 15/100]).1

/-! ## C1: the keep decision of the frame sampler -/

/-- C1 counterexample: a decoded frame with an *unknown* timestamp is kept
(and written) at the start of a run — `pts().unwrap_or(0)` coerces an unknown
timestamp to `0`, which passes `current_pts >= 0` — contradicting the claim
that unknown-timestamp frames are never kept. -/
theorem unknown_pts_kept_counterexample :
    (convStep 1 1 1000 convInit (none, true)).files = [(0, 1)]
    ∧ (convStep 1 1 1000 convInit (none, true)).lastPts = 0 := by
  decide

/-- C1 amended: every scanned frame (kept or not, including unknown-timestamp
frames) increments the total-scanned counter; a frame is kept iff its
*effective* timestamp `cur` — the decoded pts with unknown coerced to `0` —
satisfies `cur ≥ 0` and (no frame kept yet, i.e. `last = -1`, or
`cur − last ≥ threshold`); negative timestamps are never kept, but an
unknown timestamp behaves exactly like `pts = 0` and *can* be kept. -/
theorem sampler_keep_rule (thr tbNum tbDen : ℤ) (s : ConvState) (pts : Option ℤ) (flag : Bool) :
    (convStep thr tbNum tbDen s (pts, flag)).videoFrameCount = s.videoFrameCount + 1
    ∧ (keepFrame s.lastPts thr (pts.getD 0) = true ↔
        0 ≤ pts.getD 0 ∧ (s.lastPts = -1 ∨ thr ≤ pts.getD 0 - s.lastPts))
    ∧ (∀ p : ℤ, pts = some p → p < 0 → keepFrame s.lastPts thr (pts.getD 0) = false)
    ∧ (pts = none → keepFrame s.lastPts thr (pts.getD 0) = keepFrame s.lastPts thr 0) := by
  refine ⟨?_, ?_, ?_, ?_⟩
  · simp only [convStep]
    split <;> rfl
  · simp [keepFrame, Bool.and_eq_true, Bool.or_eq_true, decide_eq_true_eq]
  · rintro p rfl hp
    simp only [Option.getD_some, keepFrame]
    have : ¬ (0 ≤ p) := not_le.mpr hp
    simp [this]
  · rintro rfl; rfl

/-- C1 witness: a concrete kept frame increments the scanned counter. -/
theorem sampler_keep_rule_witness :
    (convStep 1 1 1000 convInit (some 5, true)).videoFrameCount = convInit.videoFrameCount + 1 :=
  (sampler_keep_rule 1 1 1000 convInit (some 5) true).1

/-! ## C3: the sampling threshold -/

/-- C3 counterexample: with a 30 fps source and a 120 fps target,
`run_conversion`'s threshold `(video_fps / target_fps).round() as i64`
evaluates to `0`, not to the claimed `max(1, round(30/120)) = 1`. -/
theorem threshold_unclamped_counterexample :
    minPtsDifference 30 120 = 0 ∧ specThreshold 30 120 = 1
    ∧ minPtsDifference 30 120 ≠ specThreshold 30 120 := by
  have h14 : (30 : ℚ) / 120 = 1 / 4 := by norm_num
  have hr : roundHalfAwayFromZero (1 / 4) = 0 := by
    have : (0 : ℚ) ≤ 1 / 4 := by norm_num
    rw [roundHalfAwayFromZero, if_pos this]
    norm_num
  have h0 : minPtsDifference 30 120 = 0 := by
    rw [minPtsDifference, h14, hr]
  have h1 : specThreshold 30 120 = 1 := by
    rw [specThreshold, h14, hr]
    norm_num
  exact ⟨h0, h1, by rw [h0, h1]; decide⟩

/-- C3 amended: `run_conversion` (`src/convert.rs:49`) uses the *unclamped*
`round(source_fps / target_fps)`, which is never negative for nonnegative
rates, is `0` whenever the target rate *exceeds* twice the source rate, and
at *exactly* twice the source rate is `1` (0.5 rounds half away from zero);
the `max(1, ·)` clamp exists only in the standalone `src/main.rs` variant,
which moreover rounds the time-base ratio `tb_den / (fps · tb_num)` instead
of the frame-rate ratio. -/
theorem threshold_formulas (videoFps targetFps : ℚ)
    (hv : 0 ≤ videoFps) (ht : 0 < targetFps) :
    minPtsDifference videoFps targetFps = roundHalfAwayFromZero (videoFps / targetFps)
    ∧ 0 ≤ minPtsDifference videoFps targetFps
    ∧ (2 * videoFps < targetFps → minPtsDifference videoFps targetFps = 0)
    ∧ (0 < videoFps → targetFps = 2 * videoFps → minPtsDifference videoFps targetFps = 1)
    ∧ ∀ (tbNum tbDen : ℤ) (fps ofps : ℚ), 1 ≤ mainMinPtsDifference tbNum tbDen fps ofps := by
  have hq : (0 : ℚ) ≤ videoFps / targetFps := div_nonneg hv ht.le
  refine ⟨rfl, ?_, ?_, ?_, ?_⟩
  · have : (0 : ℚ) ≤ videoFps / targetFps + 1 / 2 := by linarith
    simp only [minPtsDifference, roundHalfAwayFromZero, if_pos hq]
    exact Int.le_floor.mpr (by exact_mod_cast this)
  · intro h2
    have hlt : videoFps / targetFps < 1 / 2 := by
      rw [div_lt_iff₀ ht]
      linarith
    simp only [minPtsDifference, roundHalfAwayFromZero, if_pos hq]
    refine Int.floor_eq_zero_iff.mpr ⟨by linarith, by linarith⟩
  · intro hvpos h2
    have hhalf : videoFps / targetFps = 1 / 2 := by
      rw [h2, div_eq_iff (by positivity)]
      ring
    simp only [minPtsDifference, roundHalfAwayFromZero, if_pos hq, hhalf]
    norm_num
  · intro tbNum tbDen fps ofps
    exact le_max_right _ 1

/-- C3 witness: the unclamped threshold vanishes above twice the source rate
but is 1 at exactly twice, and the historical variant's clamp holds. -/
theorem threshold_formulas_witness :
    minPtsDifference 30 120 = 0 ∧ minPtsDifference 30 60 = 1
    ∧ 1 ≤ mainMinPtsDifference 1 1000 10 30 :=
  ⟨(threshold_formulas 30 120 (by norm_num) (by norm_num)).2.2.1 (by norm_num),
   (threshold_formulas 30 60 (by norm_num) (by norm_num)).2.2.2.1 (by norm_num) (by norm_num),
   (threshold_formulas 30 120 (by norm_num) (by norm_num)).2.2.2.2 1 1000 10 30⟩

/-! ## C4: in-bucket frame numbering -/

/-- C4 counterexample: three kept frames in bucket 0 where the middle frame's
conversion/write fails leave files numbered `1` and `3` — the counter
advanced on the failed frame, so the files present are *not* the contiguous
run `1, 2`. -/
theorem frame_number_gap_counterexample :
    (convRun 1 1 1000 [(some 0, true), (some 1, false), (some 2, true)]).files
      = [(0, 1), (0, 3)] := by
  decide

/-- C4 amended: the in-bucket counter starts at 1 when a bucket is entered
and advances by exactly 1 per *kept* frame — whether or not that frame's
content is successfully written; a file is created (with the current counter
value) only on success, so the files present in a bucket carry strictly
increasing but possibly non-contiguous numbers.  The counter is independent
of any other bucket's counter (it restarts at 1 on every bucket change). -/
theorem writer_counter_per_kept_frame (thr tbNum tbDen : ℤ) (s : ConvState)
    (pts : ℤ) (flag : Bool) (h : keepFrame s.lastPts thr pts = true) :
    (convStep thr tbNum tbDen s (some pts, flag)).frameCountInSecond
      = (if s.lastSecond = some (bucketOfPts pts tbNum tbDen)
         then s.frameCountInSecond + 1 else 1)
    ∧ (convStep thr tbNum tbDen s (some pts, flag)).files
      = (if flag then
          s.files ++ [(bucketOfPts pts tbNum tbDen,
            (convStep thr tbNum tbDen s (some pts, flag)).frameCountInSecond)]
         else s.files) := by
  refine ⟨?_, ?_⟩ <;> simp [convStep, Option.getD_some, h]

/-- C4 witness: a concrete kept-and-written frame in a fresh bucket. -/
theorem writer_counter_per_kept_frame_witness :
    (convStep 1 1 1000 convInit (some 0, true)).frameCountInSecond
      = (if convInit.lastSecond = some (bucketOfPts 0 1 1000)
         then convInit.frameCountInSecond + 1 else 1) :=
  (writer_counter_per_kept_frame 1 1 1000 convInit 0 true (by decide)).1

/-! ## C5: idempotence of bucket-directory creation -/

/-- C5 counterexample: with the negative threshold `-1` (reachable, since
`run_conversion` never validates the target fps), the kept-pts sequence
`0, 1, 0` re-enters the previously used bucket 0; re-creating its directory
is not an error, but the in-bucket counter restarts at 1 — the third frame is
written as `0/1.txt` again instead of continuing that bucket's numbering. -/
theorem bucket_revisit_resets_counter_counterexample :
    (convRun (-1) 1 1 [(some 0, true), (some 1, true), (some 0, true)]).files
      = [(0, 1), (1, 1), (0, 1)]
    ∧ (convRun (-1) 1 1 [(some 0, true), (some 1, true), (some 0, true)]).dirs
      = [0, 1] := by
  decide

/-- C5 amended: bucket-directory creation (`fs::create_dir_all`) is
idempotent — re-creating an existing bucket directory changes nothing and is
not an error — and a kept frame whose bucket equals the bucket currently in
use continues that bucket's numbering (counter + 1, no directory touched);
but the counter restarts at 1 on *every* bucket change, including a return
to a previously used bucket, which can overwrite that bucket's earlier
frames (reachable only with a non-positive threshold, i.e. a target rate
above twice the source rate or a negative target rate, as the code does not
validate the fps argument). -/
theorem bucket_dir_create_idempotent (n : ℕ) (dirs : List ℕ)
    (thr tbNum tbDen : ℤ) (s : ConvState) (pts : ℤ) (flag : Bool)
    (hk : keepFrame s.lastPts thr pts = true)
    (hb : s.lastSecond = some (bucketOfPts pts tbNum tbDen)) :
    createDirAll n (createDirAll n dirs) = createDirAll n dirs
    ∧ (convStep thr tbNum tbDen s (some pts, flag)).frameCountInSecond
        = s.frameCountInSecond + 1
    ∧ (convStep thr tbNum tbDen s (some pts, flag)).dirs = s.dirs := by
  refine ⟨?_, ?_, ?_⟩
  · by_cases h : n ∈ dirs
    · simp [createDirAll, h]
    · simp [createDirAll, h]
  · simp [convStep, Option.getD_some, hk, hb]
  · simp [convStep, Option.getD_some, hk, hb]

/-- C5 witness: a second kept frame in the same bucket continues numbering. -/
theorem bucket_dir_create_idempotent_witness :
    (convStep 1 1 1000 (convRun 1 1 1000 [(some 0, true)]) (some 1, true)).frameCountInSecond
      = (convRun 1 1 1000 [(some 0, true)]).frameCountInSecond + 1 :=
  (bucket_dir_create_idempotent 0 [] 1 1 1000 (convRun 1 1 1000 [(some 0, true)])
    1 true (by decide) (by decide)).2.1

/-! ## C7: zero-denominator time base -/

/-- C7 counterexample: `run_conversion` performs no zero-denominator check —
with `time_base = 1/0` it proceeds, computes the saturated bucket
`2^64 − 1` for pts 1 and happily creates the directory and writes the frame
file, instead of failing with a configuration error. -/
theorem zero_den_no_check_counterexample :
    (convRun 1 1 0 [(some 1, true)]).files = [(2 ^ 64 - 1, 1)]
    ∧ (convRun 1 1 0 [(some 1, true)]).dirs = [2 ^ 64 - 1] := by
  decide

/-- C7 amended: only the standalone historical `src/main.rs` variant treats a
zero-denominator time base as a fatal configuration error (and it does so
before decoding); `run_conversion` in `src/convert.rs` has no such check and
proceeds to compute bucket numbers from the zero-denominator time base (the
`f64` division saturates to bucket `2^64 − 1` or `0`). -/
theorem time_base_zero_check (tbDen : ℤ) :
    ((∃ e, mainTimeBaseCheck tbDen = .error e) ↔ tbDen = 0)
    ∧ ∀ (thr tbNum : ℤ) (s : ConvState) (pts : ℤ) (flag : Bool),
        keepFrame s.lastPts thr pts = true →
        (convStep thr tbNum 0 s (some pts, flag)).lastSecond
          = some (bucketOfPts pts tbNum 0) := by
  constructor
  · constructor
    · rintro ⟨e, he⟩
      by_contra h
      simp [mainTimeBaseCheck, h] at he
    · rintro rfl
      exact ⟨_, rfl⟩
  · intro thr tbNum s pts flag hk
    simp only [convStep, Option.getD_some, hk, if_true]

/-- C7 witness: the check fires at denominator `0` and the unchecked
run_conversion step buckets a frame from the zero-denominator time base. -/
theorem time_base_zero_check_witness :
    (∃ e, mainTimeBaseCheck 0 = .error e)
    ∧ (convStep 1 1 0 convInit (some 1, true)).lastSecond = some (bucketOfPts 1 1 0) :=
  ⟨(time_base_zero_check 0).1.mpr rfl,
   (time_base_zero_check 0).2 1 1 convInit 1 true (by decide)⟩

/-! ## C2: merging loose root files with the explicit bucket-0 directory -/

/-- C2 counterexample: the merge is *not* independent of the filesystem
iteration order, and the merged bucket-0 frames are *not* always ascending:
a store with loose root file `5.txt` and directory file `0/3.txt` discovers
as `[5, 3]` when the loose file is listed first (two separate bucket-0
groups are formed), but as `[3, 5]` when the directory is listed first. -/
theorem merge_order_dependent_counterexample :
    (discover [.file "5.txt", .dir "0" ["3.txt"]]).1 = [.root "5.txt", .sub "0" "3.txt"]
    ∧ (discover [.dir "0" ["3.txt"], .file "5.txt"]).1 = [.sub "0" "3.txt", .root "5.txt"]
    ∧ (discover [.file "5.txt", .dir "0" ["3.txt"]]).1
        ≠ (discover [.dir "0" ["3.txt"], .file "5.txt"]).1 := by
  exact ⟨by decide, by decide, by decide⟩

/-- C2 amended: loose root frames are merged into the *first* bucket-0 group
created during the scan, and only that first group is re-sorted afterwards,
so when the explicit `0` directory is listed after a loose root file it
forms a second bucket-0 group appended behind the loose files (making the
result order-dependent in general, e.g. for loose `5.txt` + `0/3.txt`).
For the specific claimed store — loose `1.txt`, `2.txt` plus `0/3.txt` —
every one of the six iteration orders does yield the single ascending
sequence `[1, 2, 3]`. -/
theorem merge_example_all_orders (l : List FsEntry)
    (h : l.Perm [.file "1.txt", .file "2.txt", .dir "0" ["3.txt"]]) :
    (discover l).1 = [.root "1.txt", .root "2.txt", .sub "0" "3.txt"] := by
  rcases perm_triple_cases h with rfl | rfl | rfl | rfl | rfl | rfl <;> decide

/-- C2 witness: the store listed in the claimed order. -/
theorem merge_example_all_orders_witness :
    (discover [.file "1.txt", .file "2.txt", .dir "0" ["3.txt"]]).1
      = [.root "1.txt", .root "2.txt", .sub "0" "3.txt"] :=
  merge_example_all_orders _ (List.Perm.refl _)

/-! ## C6: write / discover round trip -/

/-- C6: writing frames across buckets `{0:[1,2], 3:[1]}` (here: a conversion
run with threshold 1 and time base 1/2 keeping pts 0, 1, 6) leaves the store
`0/{1.txt,2.txt}, 3/1.txt`, and discovery returns exactly the 3 entries
`[0/1, 0/2, 3/1]` for every filesystem listing order of the directories and
of the files inside bucket 0. -/
theorem round_trip_store_discovery :
    storeEntries (convRun 1 1 2 [(some 0, true), (some 1, true), (some 6, true)])
      = [.dir "0" ["1.txt", "2.txt"], .dir "3" ["1.txt"]]
    ∧ ∀ (outer : List FsEntry) (inner : List String),
        inner.Perm ["1.txt", "2.txt"] →
        outer.Perm [.dir "0" inner, .dir "3" ["1.txt"]] →
        (discover outer).1 = [.sub "0" "1.txt", .sub "0" "2.txt", .sub "3" "1.txt"] := by
  refine ⟨by decide, ?_⟩
  intro outer inner hi ho
  rcases perm_pair_cases hi with rfl | rfl <;>
    rcases perm_pair_cases ho with rfl | rfl <;> decide

/-- C6 witness: the store in its written order. -/
theorem round_trip_store_discovery_witness :
    (discover [.dir "0" ["1.txt", "2.txt"], .dir "3" ["1.txt"]]).1
      = [.sub "0" "1.txt", .sub "0" "2.txt", .sub "3" "1.txt"] :=
  round_trip_store_discovery.2 _ _ (List.Perm.refl _) (List.Perm.refl _)

/-! ## C8: discovery and playback error classes -/

/-- C8: discovery of an unreadable root fails with an I/O-class error;
discovery of a readable root always succeeds (possibly with an empty
sequence), and playback turns an empty discovered sequence into the distinct
"no valid frame files found" error. -/
theorem discovery_error_classes (fps : ℚ) (hfps : 0 < fps) :
    discoverAndSortFrames .unreadable = .error .ioError
    ∧ (∀ entries : List FsEntry,
        discoverAndSortFrames (.readable entries) = .ok (discover entries).1)
    ∧ (∀ entries : List FsEntry, (discover entries).1 = [] →
        playAnimationFrames fps (.readable entries) = .error .nothingToPlay)
    ∧ PlayError.nothingToPlay ≠ PlayError.ioError := by
  refine ⟨rfl, fun _ => rfl, ?_, by decide⟩
  intro entries hempty
  have hnle : ¬ fps ≤ 0 := not_le.mpr hfps
  simp [playAnimationFrames, discoverAndSortFrames, hnle, hempty]

/-- C8 witness: a root with no conforming entries plays back as
`nothingToPlay` at fps 30. -/
theorem discovery_error_classes_witness :
    playAnimationFrames 30 (.readable [.file "_temp_frame.png"]) = .error .nothingToPlay :=
  (discovery_error_classes 30 (by norm_num)).2.2.1 [.file "_temp_frame.png"] (by decide)

/-! ## C10: only exact `.txt` files are considered; warning discipline -/

theorem insertByKey_perm (key : α → Nat) (a : α) (l : List α) :
    (insertByKey key a l).Perm (a :: l) := by
  induction l with
  | nil => exact List.Perm.refl _
  | cons b bs ih =>
    rw [insertByKey]
    split
    · exact ((ih.cons b).trans (List.Perm.swap a b bs)).symm.symm
    · exact List.Perm.refl _

theorem foldl_insertByKey_perm (key : α → Nat) (l : List α) :
    ∀ acc : List α, (l.foldl (fun acc a => insertByKey key a acc) acc).Perm (acc ++ l) := by
  induction l with
  | nil => intro acc; simp
  | cons a rest ih =>
    intro acc
    have h1 := ih (insertByKey key a acc)
    have h2 : (insertByKey key a acc ++ rest).Perm ((a :: acc) ++ rest) :=
      (insertByKey_perm key a acc).append_right rest
    have h3 : ((a :: acc) ++ rest).Perm (acc ++ a :: rest) := List.perm_middle.symm
    simpa using (h1.trans h2).trans h3

theorem sortByKey_perm (key : α → Nat) (l : List α) : (sortByKey key l).Perm l := by
  simpa using foldl_insertByKey_perm key l []

theorem scanDirFiles_spec (dname : String) (files : List String) :
    (scanDirFiles dname files).1
      = (files.filterMap fun f =>
          if fileExtension f = some "txt" then
            (parseU64 (fileStem f)).map fun n => (⟨.sub dname f, n⟩ : FrameInfo)
          else none)
    ∧ (scanDirFiles dname files).2
      = (files.filterMap fun f =>
          if fileExtension f = some "txt" ∧ parseU64 (fileStem f) = none then
            some (.badFrameFile (.sub dname f))
          else none) := by
  induction files with
  | nil => exact ⟨rfl, rfl⟩
  | cons f rest ih =>
    rw [scanDirFiles]
    by_cases hext : fileExtension f = some "txt"
    · rcases hp : parseU64 (fileStem f) with _ | n
      · simp [hext, hp, List.filterMap_cons, ih.1, ih.2]
      · simp [hext, hp, List.filterMap_cons, ih.1, ih.2]
    · simp [hext, List.filterMap_cons, ih.1, ih.2]

theorem framesOfSeconds_perm {ss₁ ss₂ : List SecondInfo} (h : ss₁.Perm ss₂) :
    (framesOfSeconds ss₁).Perm (framesOfSeconds ss₂) :=
  show ((ss₁.flatMap fun s => s.frames).Perm (ss₂.flatMap fun s => s.frames)) from
    h.flatMap_right _

theorem pushRootFrame_perm (fi : FrameInfo) (ss : List SecondInfo) :
    (framesOfSeconds (pushRootFrame fi ss)).Perm (framesOfSeconds ss ++ [fi]) := by
  induction ss with
  | nil => simp [pushRootFrame, framesOfSeconds]
  | cons s rest ih =>
    rw [pushRootFrame]
    split
    · show ((({ s with frames := s.frames ++ [fi] } : SecondInfo) :: rest).flatMap
          fun s => s.frames).Perm (((s :: rest).flatMap fun s => s.frames) ++ [fi])
      simp only [List.flatMap_cons, List.append_assoc]
      exact List.Perm.append_left s.frames List.perm_append_comm
    · show (((s :: pushRootFrame fi rest).flatMap fun s => s.frames)).Perm
          ((((s :: rest).flatMap fun s => s.frames)) ++ [fi])
      simp only [List.flatMap_cons, List.append_assoc]
      exact List.Perm.append_left s.frames ih

theorem discoverStep_spec (acc : List SecondInfo × List Warning) (e : FsEntry) :
    (framesOfSeconds (discoverStep acc e).1).Perm (framesOfSeconds acc.1 ++ conformingFrames e)
    ∧ (discoverStep acc e).2 = acc.2 ++ warnOf e := by
  match e with
  | .dir name files =>
    rw [discoverStep, conformingFrames, warnOf]
    rcases hp : parseU64 name with _ | n
    · simp
    · simp only []
      constructor
      · split
        · rename_i hempty
          have hnil : sortByKey (fun fi => fi.number) (scanDirFiles name files).1 = [] :=
            List.isEmpty_iff.mp hempty
          have hfs : (scanDirFiles name files).1 = [] :=
            List.perm_nil.mp
              (hnil ▸ sortByKey_perm (fun fi : FrameInfo => fi.number)
                (scanDirFiles name files).1).symm
          rw [← (scanDirFiles_spec name files).1, hfs]
          simp
        · have hperm := sortByKey_perm (fun fi => fi.number) (scanDirFiles name files).1
          rw [← (scanDirFiles_spec name files).1]
          simp only [framesOfSeconds, List.flatMap_append, List.flatMap_cons,
            List.flatMap_nil, List.append_nil]
          exact hperm.append_left _
      · rw [(scanDirFiles_spec name files).2]
  | .file name =>
    rw [discoverStep, conformingFrames, warnOf]
    by_cases hext : fileExtension name = some "txt"
    · rcases hp : parseU64 (fileStem name) with _ | n
      · simp [hext, hp]
      · simp only [hext, hp, if_true, reduceIte]
        constructor
        · simpa [hext, hp] using pushRootFrame_perm ⟨.root name, n⟩ acc.1
        · simp [hext, hp]
    · simp [hext]

theorem processEntries_spec (entries : List FsEntry) :
    ∀ acc : List SecondInfo × List Warning,
      (framesOfSeconds (processEntries acc entries).1).Perm
        (framesOfSeconds acc.1 ++ entries.flatMap conformingFrames)
      ∧ (processEntries acc entries).2 = acc.2 ++ entries.flatMap warnOf := by
  induction entries with
  | nil => intro acc; simp [processEntries]
  | cons e rest ih =>
    intro acc
    rw [processEntries]
    constructor
    · have h1 := (ih (discoverStep acc e)).1
      have h2 : (framesOfSeconds (discoverStep acc e).1 ++ rest.flatMap conformingFrames).Perm
          ((framesOfSeconds acc.1 ++ conformingFrames e) ++ rest.flatMap conformingFrames) :=
        (discoverStep_spec acc e).1.append_right _
      have := h1.trans h2
      simpa [List.flatMap_cons, List.append_assoc] using this
    · rw [(ih (discoverStep acc e)).2, (discoverStep_spec acc e).2]
      simp [List.flatMap_cons, List.append_assoc]

theorem sortSecondZero_perm (ss : List SecondInfo) :
    (framesOfSeconds (sortSecondZero ss)).Perm (framesOfSeconds ss) := by
  induction ss with
  | nil => exact List.Perm.refl _
  | cons s rest ih =>
    rw [sortSecondZero]
    split
    · simp only [framesOfSeconds, List.flatMap_cons]
      exact (sortByKey_perm (fun fi => fi.number) s.frames).append_right _
    · simp only [framesOfSeconds, List.flatMap_cons]
      exact ih.append_left s.frames

theorem flatMap_frames_map_path (ss : List SecondInfo) :
    (ss.flatMap fun s => s.frames.map fun fi => fi.path)
      = (framesOfSeconds ss).map fun fi => fi.path := by
  induction ss with
  | nil => rfl
  | cons s rest ih => simp [framesOfSeconds, List.flatMap_cons, ih]

/-- C10: discovery considers exactly the regular files whose extension is
exactly `txt` and whose stem parses as `u64` (loose at the root, or inside a
directory whose name parses) — any other file, e.g. a leftover
`_temp_frame.png` or an extensionless numeric name, contributes neither a
frame nor a warning; and the warnings are emitted exactly for `.txt` files
with unparseable stems and directories with unparseable names, in scan
order. -/
theorem discovery_txt_filter (entries : List FsEntry) :
    (discover entries).2 = entries.flatMap warnOf
    ∧ (discover entries).1.Perm
        ((entries.flatMap conformingFrames).map fun fi => fi.path) := by
  constructor
  · simpa using (processEntries_spec entries ([], [])).2
  · show ((sortByKey (fun s => s.number)
        (sortSecondZero (processEntries ([], []) entries).1)).flatMap
          fun s => s.frames.map fun fi => fi.path).Perm _
    rw [flatMap_frames_map_path]
    have h1 : (framesOfSeconds (sortByKey (fun s => s.number)
        (sortSecondZero (processEntries ([], []) entries).1))).Perm
        (framesOfSeconds (sortSecondZero (processEntries ([], []) entries).1)) :=
      framesOfSeconds_perm (sortByKey_perm (fun s : SecondInfo => s.number) _)
    have h2 := sortSecondZero_perm (processEntries ([], []) entries).1
    have h3 := (processEntries_spec entries ([], [])).1
    have h4 : (framesOfSeconds (([] : List SecondInfo))) ++ entries.flatMap conformingFrames
        = entries.flatMap conformingFrames := by simp [framesOfSeconds]
    exact ((h1.trans h2).trans (h4 ▸ h3)).map _

/-- C10 witness: a store with a scratch `.png`, an extensionless numeric
name, a bad `.txt` stem and a bad directory name produces exactly the two
parse warnings and no frame entries for the skipped files. -/
theorem discovery_txt_filter_witness :
    (discover [.file "_temp_frame.png", .file "foo.txt", .dir "bar" ["1.txt"],
        .dir "2" ["x.txt", "9"]]).2
      = [.badFrameFile (.root "foo.txt"), .badDirName "bar",
        .badFrameFile (.sub "2" "x.txt")] := by
  rw [(discovery_txt_filter [.file "_temp_frame.png", .file "foo.txt", .dir "bar" ["1.txt"],
    .dir "2" ["x.txt", "9"]]).1]
  decide

end Ascii4
